import Mathlib

/-!
Shallow embedding of the habitator plugin's settings persistence and
normalization logic (settings.ts and the main plugin module).

Raw on-disk records are modelled with `Option`-wrapped fields: the outer
`Option` is key presence (`none` = key absent), and for fields whose JS value
may itself be `null` there is an inner `Option` with `none` for `null` or
`undefined`. The legacy top-level `completedDays` value domain is restricted
to `null` or an array of strings, the shapes the plugin and the legacy schema
actually produce; `generateUuid()` is modelled as a counter-indexed supply
`fresh : Nat -> String`, and `new Date().getFullYear()` as an explicit
`currentYear` argument.
-/

namespace Habitator

/-- A normalized habit (interface `Habit` in settings.ts). -/
structure Habit where
  id : String
  name : String
  completedDays : List String
deriving DecidableEq

/-- A habit as it may occur inside a raw record: any field may be absent or
empty; `completedDays` is `none` when the stored value is not an array. -/
structure RawHabit where
  id : Option String
  name : Option String
  completedDays : Option (List String)
deriving DecidableEq

/-- A raw settings record as parsed from JSON, the argument type of
`normalizeSettings` (`Partial HabitatorSettings` plus the legacy top-level
`completedDays`). -/
structure RawRecord where
  year : Option Int
  habits : Option (Option (List RawHabit))
  activeHabitId : Option (Option String)
  completedDays : Option (Option (List String))
deriving DecidableEq

/-- The in-memory settings object produced by `normalizeSettings`. The stray
legacy top-level `completedDays` field is carried along because
`Object.assign` keeps it on the returned record when the input had one. -/
structure HabitatorSettings where
  year : Int
  habits : List Habit
  activeHabitId : Option String
  completedDays : Option (Option (List String))
deriving DecidableEq

def emptyRaw : RawRecord :=
  { year := none, habits := none, activeHabitId := none, completedDays := none }

/-- JS truthiness of a string-or-null value: `null`, `undefined` and the
empty string are falsy. -/
def jsTruthy : Option String → Bool
  | none => false
  | some s => s != ""

/-- The id of the single default habit in `DEFAULT_SETTINGS` (settings.ts). -/
def defaultHabitId : String := "00000000-0000-4000-8000-000000000001"

/-- `DEFAULT_SETTINGS.habits` from settings.ts. -/
def defaultHabits : List Habit :=
  [{ id := defaultHabitId, name := "Main habit", completedDays := [] }]

inductive HabitatorStorageMode where
  | plugin
  | dotHabitator
  | customSubdir
deriving DecidableEq

structure HabitatorStorageConfig where
  storageMode : HabitatorStorageMode
  customSubdir : String
deriving DecidableEq

/-- `DEFAULT_STORAGE_CONFIG` from settings.ts. -/
def DEFAULT_STORAGE_CONFIG : HabitatorStorageConfig :=
  { storageMode := .dotHabitator, customSubdir := "habitator-data" }

def headIsDot : List Char → Bool
  | [] => false
  | ch :: _ => ch == '.'

/-- Whether the two-character sequence ".." occurs somewhere in the list,
the `trimmed.includes("..")` test of `sanitizeVaultRelativeDir`. -/
def hasDotDot : List Char → Bool
  | [] => false
  | ch :: rest => (ch == '.' && headIsDot rest) || hasDotDot rest

/-- JS `String.prototype.trim`: whitespace stripped from both ends. -/
def jsTrim (cs : List Char) : List Char :=
  ((cs.dropWhile Char.isWhitespace).reverse.dropWhile Char.isWhitespace).reverse

/-- `sanitizeVaultRelativeDir`: trim, turn backslashes into slashes, strip
leading and trailing slashes; an empty or ".."-containing result falls back
to the default subdirectory. -/
def sanitizeVaultRelativeDir (value : String) : String :=
  let cs0 := jsTrim value.toList
  let cs1 := cs0.map fun ch => if ch == '\\' then '/' else ch
  let cs2 := cs1.dropWhile fun ch => ch == '/'
  let cs3 := (cs2.reverse.dropWhile fun ch => ch == '/').reverse
  if cs3.isEmpty then DEFAULT_STORAGE_CONFIG.customSubdir
  else if hasDotDot cs3 then DEFAULT_STORAGE_CONFIG.customSubdir
  else String.mk cs3

/-- A raw `config` payload inside the plugin data store. -/
structure RawStorageConfig where
  storageMode : Option String
  customSubdir : Option String
deriving DecidableEq

def modeString : HabitatorStorageMode → String
  | .plugin => "plugin"
  | .dotHabitator => "dot-habitator"
  | .customSubdir => "custom-subdir"

def configToRaw (c : HabitatorStorageConfig) : RawStorageConfig :=
  { storageMode := some (modeString c.storageMode), customSubdir := some c.customSubdir }

def normalizeStorageConfig (input : Option RawStorageConfig) : HabitatorStorageConfig :=
  let mode :=
    (input.bind RawStorageConfig.storageMode).getD (modeString DEFAULT_STORAGE_CONFIG.storageMode)
  let customSubdir :=
    (input.bind RawStorageConfig.customSubdir).getD DEFAULT_STORAGE_CONFIG.customSubdir
  let normalizedMode : HabitatorStorageMode :=
    if mode == "plugin" then .plugin
    else if mode == "dot-habitator" then .dotHabitator
    else if mode == "custom-subdir" then .customSubdir
    else DEFAULT_STORAGE_CONFIG.storageMode
  { storageMode := normalizedMode, customSubdir := sanitizeVaultRelativeDir customSubdir }

def getConfiguredHabitatorDataPath (config : HabitatorStorageConfig) : String :=
  match config.storageMode with
  | .dotHabitator => ".habitator/habitator.json"
  | .customSubdir => sanitizeVaultRelativeDir config.customSubdir ++ "/habitator.json"
  | .plugin => ".habitator/habitator.json"

def habitToRaw (h : Habit) : RawHabit :=
  { id := some h.id, name := some h.name, completedDays := some h.completedDays }

def settingsToRaw (s : HabitatorSettings) : RawRecord :=
  { year := some s.year
  , habits := some (some (s.habits.map habitToRaw))
  , activeHabitId := some s.activeHabitId
  , completedDays := s.completedDays }

/-- Field-wise view of `Object.assign({}, DEFAULT_SETTINGS, input ?? {})`
for the `habits` field (line 410): an absent key keeps the default list. -/
def mergedHabits (x : Option RawRecord) : Option (List RawHabit) :=
  match (x.getD emptyRaw).habits with
  | none => some (defaultHabits.map habitToRaw)
  | some v => v

/-- Field-wise view of the shallow merge for `activeHabitId`: an absent key
keeps the default id. -/
def mergedActive (x : Option RawRecord) : Option String :=
  match (x.getD emptyRaw).activeHabitId with
  | none => some defaultHabitId
  | some v => v

/-- The migration guard `!base.habits || base.habits.length === 0`
(line 413), evaluated on the merged record. -/
def mergedHabitsEmpty (x : Option RawRecord) : Bool :=
  match mergedHabits x with
  | none => true
  | some l => l.isEmpty

/-- `input?.completedDays` when truthy; in this domain a truthy value is a
present array. -/
def legacyDaysOf (x : Option RawRecord) : Option (List String) :=
  match (x.getD emptyRaw).completedDays with
  | some (some l) => some l
  | _ => none

/-- The habit synthesized by the legacy-migration branch (lines 414-418).
`DEFAULT_SETTINGS.habits` is non-empty, so its first id is always used and
the `?? generateUuid()` alternative is dead. -/
def migratedHabitOf (l : List String) : RawHabit :=
  { id := some defaultHabitId, name := some "Main habit", completedDays := some l }

/-- The `habits` field after the migration branch (lines 412-421). -/
def habitsPostMigration (x : Option RawRecord) : Option (List RawHabit) :=
  match legacyDaysOf x with
  | some l => if mergedHabitsEmpty x then some [migratedHabitOf l] else mergedHabits x
  | none => mergedHabits x

/-- The `activeHabitId` field after the migration branch. -/
def activePostMigration (x : Option RawRecord) : Option String :=
  match legacyDaysOf x with
  | some _ => if mergedHabitsEmpty x then some defaultHabitId else mergedActive x
  | none => mergedActive x

/-- The `habits` field after the still-empty fallback to a copy of the
default list (lines 423-425). -/
def habitsPreFix (x : Option RawRecord) : List RawHabit :=
  match habitsPostMigration x with
  | none => defaultHabits.map habitToRaw
  | some l => if l.isEmpty then defaultHabits.map habitToRaw else l

/-- `activeHabitId` after the falsy-correction step (lines 426-428): the
correction reads the first habit's raw id, before the per-habit fix loop. -/
def activePreFix (x : Option RawRecord) : Option String :=
  let a := activePostMigration x
  if jsTruthy a then a
  else
    match (habitsPreFix x).head? with
    | some h => h.id
    | none => a

/-- One iteration of the per-habit fix loop (lines 430-435). -/
def fixHabit (fresh : Nat → String) (c : Nat) (h : RawHabit) : Habit × Nat :=
  let idc : String × Nat := if jsTruthy h.id then (h.id.getD "", c) else (fresh c, c + 1)
  ({ id := idc.1
   , name := if jsTruthy h.name then h.name.getD "" else "Habit"
   , completedDays := h.completedDays.getD [] }, idc.2)

def fixHabits (fresh : Nat → String) : Nat → List RawHabit → List Habit × Nat
  | c, [] => ([], c)
  | c, h :: t =>
    let hc := fixHabit fresh c h
    let tc := fixHabits fresh hc.2 t
    (hc.1 :: tc.1, tc.2)

/-- `normalizeSettings` (lines 409-438), with `input = none` for a JS `null`
argument. The second component is the uuid-supply counter after the call. -/
def normalizeSettings (currentYear : Int) (fresh : Nat → String) (c : Nat)
    (input : Option RawRecord) : HabitatorSettings × Nat :=
  let inp := input.getD emptyRaw
  ({ year := inp.year.getD currentYear
   , habits := (fixHabits fresh c (habitsPreFix input)).1
   , activeHabitId := activePreFix input
   , completedDays := inp.completedDays }
  , (fixHabits fresh c (habitsPreFix input)).2)

/-- `getActiveHabit` (main module, lines 45-56). -/
def getActiveHabit (s : HabitatorSettings) : Option Habit :=
  if s.habits.isEmpty then none
  else
    let byId : Option Habit :=
      if jsTruthy s.activeHabitId then
        s.habits.find? fun h => h.id == s.activeHabitId.getD ""
      else none
    match byId with
    | some h => some h
    | none => s.habits.head?

/-- A value of the plugin data store (`loadData()` result): either the
wrapped `{config, data}` document or a bare legacy settings record. -/
inductive PluginBlob where
  | wrapped (config : Option RawStorageConfig) (data : Option RawRecord)
  | bare (record : RawRecord)
deriving DecidableEq

/-- `(pluginBlob as any)?.config`: a bare legacy record has no config key. -/
def PluginBlob.configField : PluginBlob → Option RawStorageConfig
  | .wrapped cfg _ => cfg
  | .bare _ => none

/-- `(obj?.data ?? obj)` read as a settings record: a wrapper object carries
only config and data keys, so as a settings record it is empty. -/
def PluginBlob.dataOrSelf : PluginBlob → RawRecord
  | .wrapped _ (some d) => d
  | .wrapped _ none => emptyRaw
  | .bare r => r

/-- The storage environment: the plugin data store content, the vault files
(`none` = missing, unreadable or unparsable), and whether a vault write at a
given path succeeds. -/
structure StorageWorld where
  pluginData : Option PluginBlob
  vault : String → Option RawRecord
  vaultWriteOk : String → Bool

inductive WriteEvent where
  | savePluginData (blob : PluginBlob)
  | writeVaultFile (path : String) (s : HabitatorSettings)
deriving DecidableEq

/-- `tryLoadFromVaultFile` (lines 192-205): all failures become `none`. -/
def tryLoadFromVaultFile (w : StorageWorld) (path : String) : Option RawRecord :=
  w.vault path

/-- `tryLoadHabitDataFromConfiguredLocation` (lines 180-190). -/
def tryLoadHabitDataFromConfiguredLocation (w : StorageWorld)
    (config : HabitatorStorageConfig) (blob : Option PluginBlob) : Option RawRecord :=
  if config.storageMode = .plugin then
    match blob with
    | some b => some b.dataOrSelf
    | none => none
  else
    tryLoadFromVaultFile w (getConfiguredHabitatorDataPath config)

/-- `saveSettings` (lines 139-159): returns the storage config in effect
after the call, and the writes performed, in order. -/
def saveSettings (w : StorageWorld) (config : HabitatorStorageConfig)
    (s : HabitatorSettings) : HabitatorStorageConfig × List WriteEvent :=
  let first := WriteEvent.savePluginData (.wrapped (some (configToRaw config))
    (if config.storageMode = .plugin then some (settingsToRaw s) else none))
  if config.storageMode = .plugin then (config, [first])
  else
    let path := getConfiguredHabitatorDataPath config
    if w.vaultWriteOk path then (config, [first, .writeVaultFile path s])
    else
      let demoted := { config with storageMode := HabitatorStorageMode.plugin }
      (demoted
      , [first, .savePluginData (.wrapped (some (configToRaw demoted)) (some (settingsToRaw s)))])

/-- The storage config resolved at the top of `loadSettings` (line 119). -/
def loadConfigOf (w : StorageWorld) : HabitatorStorageConfig :=
  normalizeStorageConfig (w.pluginData.bind PluginBlob.configField)

/-- `loadSettings` (lines 109-137): returns the normalized settings, the
storage config in effect after the call, and the writes performed. -/
def loadSettings (currentYear : Int) (fresh : Nat → String) (c : Nat)
    (w : StorageWorld) : HabitatorSettings × HabitatorStorageConfig × List WriteEvent :=
  let config := loadConfigOf w
  match tryLoadHabitDataFromConfiguredLocation w config w.pluginData with
  | some d => ((normalizeSettings currentYear fresh c (some d)).1, config, [])
  | none =>
    let migrated : RawRecord :=
      match tryLoadFromVaultFile w ".habitator/habitator.json" with
      | some r => r
      | none =>
        match w.pluginData with
        | some b => b.dataOrSelf
        | none => emptyRaw
    let s := (normalizeSettings currentYear fresh c (some migrated)).1
    let sc := saveSettings w config s
    (s, sc.1, sc.2)

/-- The load result was persisted to the location resolved from the storage
config in effect after the call. -/
def persistedCurrent (config : HabitatorStorageConfig) (s : HabitatorSettings)
    (evs : List WriteEvent) : Prop :=
  if config.storageMode = .plugin then
    WriteEvent.savePluginData
      (.wrapped (some (configToRaw config)) (some (settingsToRaw s))) ∈ evs
  else
    WriteEvent.writeVaultFile (getConfiguredHabitatorDataPath config) s ∈ evs

instance (config : HabitatorStorageConfig) (s : HabitatorSettings)
    (evs : List WriteEvent) : Decidable (persistedCurrent config s evs) := by
  unfold persistedCurrent
  split <;> infer_instance

/-! Concrete records used in the theorems below. -/

/-- A raw record with one habit carrying one date plus a stray legacy
top-level `completedDays` list (the §8 non-migration example). -/
def strayDaysInput : RawRecord :=
  ⟨none, some (some [⟨some "a", some "X", some ["2024-01-01"]⟩]), none,
    some (some ["2024-12-12"])⟩

/-- The legacy single-habit record of the §8 migration example: top-level
`completedDays`, no `habits` key. -/
def legacyInput : RawRecord :=
  ⟨none, none, none, some (some ["2024-01-01", "2024-03-05"])⟩

/-- A record whose non-null `activeHabitId` matches no habit in its
non-empty habit list. -/
def danglingActiveInput : RawRecord :=
  ⟨none, some (some [⟨some "a", some "X", some []⟩]), some (some "zzz"), none⟩

/-- A record carrying a year outside the (1900, 3000) range. -/
def hugeYearInput : RawRecord :=
  ⟨some 5000, none, none, none⟩

/-- A record with an explicitly null `activeHabitId` and a first habit that
lacks an id. -/
def noIdHabitInput : RawRecord :=
  ⟨none, some (some [⟨none, some "X", some []⟩]), some none, none⟩

/-- A record with a null `activeHabitId` and a habit list whose first habit
has a proper id. -/
def falsyActiveInput : RawRecord :=
  ⟨none, some (some [⟨some "a", some "X", some []⟩]), some none, none⟩

/-- A settings state whose `activeHabitId` is the empty string while a habit
with the empty id exists behind a differently-named first habit. -/
def emptyIdState : HabitatorSettings :=
  ⟨2026, [⟨"a", "X", []⟩, ⟨"", "Y", []⟩], some "", none⟩

/-- A constant id supply standing in for `generateUuid()`. -/
def uuidSupply : Nat → String := fun _ => "generated-id"

/-- A plain normalized habit-data record stored in a vault file. -/
def storedRecord : RawRecord :=
  ⟨some 2024, some (some [⟨some "a", some "X", some []⟩]), some (some "a"), none⟩

/-- A world in which the configured backend (the fixed vault path, under the
default config) holds a readable record. -/
def vaultHitWorld : StorageWorld :=
  { pluginData := some (.wrapped (some ⟨some "dot-habitator", none⟩) none)
  , vault := fun p => if p = ".habitator/habitator.json" then some storedRecord else none
  , vaultWriteOk := fun _ => true }

/-- A world with no stored data at all and writable vault files. -/
def emptyWorld : StorageWorld :=
  { pluginData := none, vault := fun _ => none, vaultWriteOk := fun _ => true }

/-- A world in which every vault write fails. -/
def readOnlyWorld : StorageWorld :=
  { pluginData := none, vault := fun _ => none, vaultWriteOk := fun _ => false }

/-- An already-normalized settings value used to exercise save demotion. -/
def demoSettings : HabitatorSettings :=
  ⟨2026, [⟨"a", "X", []⟩], some "a", none⟩

/-- The plugin-store state left behind by a demoted save of `demoSettings`. -/
def demotedWorld : StorageWorld :=
  { pluginData := some (.wrapped
      (some (configToRaw ⟨HabitatorStorageMode.plugin, "habitator-data"⟩))
      (some (settingsToRaw demoSettings)))
  , vault := fun _ => none
  , vaultWriteOk := fun _ => false }

/-! Theorems. -/

/-- C8: the subdirectory sanitizer maps "../../etc" to the default
subdirectory "habitator-data" and normalizes backslash-separated "a\b\c"
to "a/b/c". -/
theorem sanitizeVaultRelativeDir_examples :
    sanitizeVaultRelativeDir "../../etc" = "habitator-data" ∧
    sanitizeVaultRelativeDir "a\\b\\c" = "a/b/c" := by
  constructor <;> decide

/-- Counterexample to C3: a year of 5000 in the input survives
normalization unchanged, violating the claimed 1900 < year < 3000 bound. -/
theorem normalizeSettings_year_cex :
    (normalizeSettings 2026 uuidSupply 0 (some hugeYearInput)).1.year = 5000 ∧
    ¬ ((normalizeSettings 2026 uuidSupply 0 (some hugeYearInput)).1.year < 3000) := by
  constructor <;> decide

/-- C3 (amended): normalizeSettings copies the input's year through
unchanged, defaulting to the current year only when the key is absent; it
performs no range check. -/
theorem normalizeSettings_year_passthrough (cy : Int) (fresh : Nat → String) (c : Nat)
    (x : Option RawRecord) :
    (normalizeSettings cy fresh c x).1.year = ((x.getD emptyRaw).year).getD cy := rfl

/-- C5: a record whose habits list is already non-empty is never merged
with a stray top-level legacy completedDays field; the output habit list is
exactly the input habit with its single date. -/
theorem normalizeSettings_no_merge_when_habits_nonempty (cy : Int)
    (fresh : Nat → String) (c : Nat) :
    (normalizeSettings cy fresh c (some strayDaysInput)).1.habits
      = [⟨"a", "X", ["2024-01-01"]⟩] := rfl

/-- C6: evaluating normalizeSettings at the legacy single-habit record
{completedDays: ["2024-01-01","2024-03-05"]} (no habits key) yields the
default habit with an empty day list — the merge with DEFAULT_SETTINGS makes
the habits list non-empty before the migration guard checks it, so the
migration branch never fires for a record without a habits key and both
dates are dropped, contradicting the claim. -/
theorem normalizeSettings_migration_dead_for_absent_habits (cy : Int)
    (fresh : Nat → String) (c : Nat) :
    (normalizeSettings cy fresh c (some legacyInput)).1.habits
      = [⟨defaultHabitId, "Main habit", []⟩] := rfl

/-- Counterexample to C1: a non-null activeHabitId that matches no habit in
the non-empty habit list is preserved verbatim, leaving it dangling. -/
theorem normalizeSettings_dangling_active_cex :
    (normalizeSettings 2026 uuidSupply 0 (some danglingActiveInput)).1.activeHabitId
      = some "zzz" ∧
    ((normalizeSettings 2026 uuidSupply 0 (some danglingActiveInput)).1.habits.all
      fun h => h.id != "zzz") = true := by
  constructor <;> decide

/-- Counterexample to C4: for a record whose first habit lacks an id while
activeHabitId is explicitly null, the first pass stores the raw (absent)
first-habit id in activeHabitId before the fix loop regenerates habit ids,
so a second pass changes activeHabitId and normalization is not
idempotent. -/
theorem normalizeSettings_idem_cex :
    (normalizeSettings 2026 uuidSupply
        (normalizeSettings 2026 uuidSupply 0 (some noIdHabitInput)).2
        (some (settingsToRaw (normalizeSettings 2026 uuidSupply 0 (some noIdHabitInput)).1))).1
      ≠ (normalizeSettings 2026 uuidSupply 0 (some noIdHabitInput)).1 := by
  decide

/-- Counterexample to C9: with activeHabitId equal to the empty string and a
habit whose id is the empty string present behind a different first habit,
getActiveHabit skips the lookup (empty string is falsy) and returns the
first habit rather than the matching one. -/
theorem getActiveHabit_empty_id_cex :
    emptyIdState.activeHabitId = some "" ∧
    (⟨"", "Y", []⟩ : Habit) ∈ emptyIdState.habits ∧
    getActiveHabit emptyIdState = some ⟨"a", "X", []⟩ ∧
    getActiveHabit emptyIdState ≠ some ⟨"", "Y", []⟩ := by
  refine ⟨rfl, ?_, rfl, by decide⟩
  decide

/-- Counterexample to C2: when the read from the configured backend
succeeds, loadSettings returns the normalized record without performing any
write, so nothing is persisted back out. -/
theorem loadSettings_no_persist_on_success_cex :
    (loadSettings 2026 uuidSupply 0 vaultHitWorld).2.2 = [] ∧
    ¬ persistedCurrent (loadSettings 2026 uuidSupply 0 vaultHitWorld).2.1
        (loadSettings 2026 uuidSupply 0 vaultHitWorld).1
        (loadSettings 2026 uuidSupply 0 vaultHitWorld).2.2 := by
  constructor <;> decide

/-- A string-or-null value is truthy exactly when it is a non-empty string. -/
theorem jsTruthy_eq_true {a : Option String} :
    jsTruthy a = true ↔ ∃ s, a = some s ∧ s ≠ "" := by
  cases a with
  | none => simp [jsTruthy]
  | some s => simp [jsTruthy]

/-- After the migration and default-fallback steps the habits list is
never empty. -/
theorem habitsPreFix_ne_nil (x : Option RawRecord) : habitsPreFix x ≠ [] := by
  unfold habitsPreFix
  cases habitsPostMigration x with
  | none => simp [defaultHabits]
  | some l =>
    cases l with
    | nil => simp [defaultHabits]
    | cons a t => simp

/-- The fix loop preserves emptiness of the habit list. -/
theorem fixHabits_fst_eq_nil_iff (fresh : Nat → String) (c : Nat) (hs : List RawHabit) :
    (fixHabits fresh c hs).1 = [] ↔ hs = [] := by
  cases hs with
  | nil => simp [fixHabits]
  | cons h t => simp [fixHabits]

/-- The fix loop leaves every habit with a non-empty id, provided the id
supply never returns the empty string. -/
theorem fixHabit_id_ne (fresh : Nat → String) (c : Nat) (h : RawHabit)
    (hfresh : ∀ n, fresh n ≠ "") : (fixHabit fresh c h).1.id ≠ "" := by
  unfold fixHabit
  by_cases ht : jsTruthy h.id = true
  · obtain ⟨s, hs, hne⟩ := jsTruthy_eq_true.mp ht
    simp [hs, jsTruthy, hne]
  · simp [ht, hfresh]

/-- The fix loop leaves every habit with a non-empty name. -/
theorem fixHabit_name_ne (fresh : Nat → String) (c : Nat) (h : RawHabit) :
    (fixHabit fresh c h).1.name ≠ "" := by
  unfold fixHabit
  by_cases ht : jsTruthy h.name = true
  · obtain ⟨s, hs, hne⟩ := jsTruthy_eq_true.mp ht
    simp [hs, jsTruthy, hne]
  · simp [ht]

/-- Every habit produced by the fix loop has a non-empty id and name. -/
theorem fixHabits_mem_ne (fresh : Nat → String) (hfresh : ∀ n, fresh n ≠ "") :
    ∀ (hs : List RawHabit) (c : Nat) (h : Habit), h ∈ (fixHabits fresh c hs).1 →
      h.id ≠ "" ∧ h.name ≠ "" := by
  intro hs
  induction hs with
  | nil => intro c h hmem; simp [fixHabits] at hmem
  | cons a t ih =>
    intro c h hmem
    simp only [fixHabits, List.mem_cons] at hmem
    rcases hmem with rfl | hmem
    · exact ⟨fixHabit_id_ne fresh c a hfresh, fixHabit_name_ne fresh c a⟩
    · exact ih _ h hmem

/-- The fix loop is the identity on a habit whose id and name are already
non-empty. -/
theorem fixHabit_habitToRaw (fresh : Nat → String) (c : Nat) (h : Habit)
    (hid : h.id ≠ "") (hname : h.name ≠ "") :
    fixHabit fresh c (habitToRaw h) = (h, c) := by
  simp [fixHabit, habitToRaw, jsTruthy, hid, hname]

/-- The fix loop is the identity on a list of already-fixed habits. -/
theorem fixHabits_map_habitToRaw (fresh : Nat → String) :
    ∀ (hs : List Habit) (c : Nat), (∀ h ∈ hs, h.id ≠ "" ∧ h.name ≠ "") →
      fixHabits fresh c (hs.map habitToRaw) = (hs, c) := by
  intro hs
  induction hs with
  | nil => intro c _; rfl
  | cons a t ih =>
    intro c hall
    have ha := hall a (by simp)
    have ht : ∀ h ∈ t, h.id ≠ "" ∧ h.name ≠ "" := fun h hm => hall h (by simp [hm])
    simp only [List.map_cons, fixHabits, fixHabit_habitToRaw fresh c a ha.1 ha.2, ih c ht]

/-- C4 (amended): normalizeSettings is idempotent on every input whose
normalized form has a truthy (non-null, non-empty) activeHabitId; only when
the stored activeHabitId is falsy while the first habit lacks an id does a
second pass differ, by repairing activeHabitId to the regenerated first
habit id. -/
theorem normalizeSettings_idem (cy : Int) (fresh : Nat → String) (c cOuter : Nat)
    (x : Option RawRecord) (hfresh : ∀ n, fresh n ≠ "")
    (hactive : jsTruthy (normalizeSettings cy fresh c x).1.activeHabitId = true) :
    (normalizeSettings cy fresh cOuter
        (some (settingsToRaw (normalizeSettings cy fresh c x).1))).1
      = (normalizeSettings cy fresh c x).1 := by
  set y := (normalizeSettings cy fresh c x).1 with hy
  have hhab : y.habits = (fixHabits fresh c (habitsPreFix x)).1 := rfl
  have hne : y.habits ≠ [] := by
    rw [hhab, Ne, fixHabits_fst_eq_nil_iff]; exact habitsPreFix_ne_nil x
  have hfields : ∀ h ∈ y.habits, h.id ≠ "" ∧ h.name ≠ "" := by
    rw [hhab]; exact fun h hm => fixHabits_mem_ne fresh hfresh _ c h hm
  have hempty : mergedHabitsEmpty (some (settingsToRaw y)) = false := by
    simp [mergedHabitsEmpty, mergedHabits, settingsToRaw, List.isEmpty_iff, hne]
  have hpost : habitsPostMigration (some (settingsToRaw y)) = some (y.habits.map habitToRaw) := by
    unfold habitsPostMigration
    cases hld : legacyDaysOf (some (settingsToRaw y)) with
    | none => simp [mergedHabits, settingsToRaw]
    | some l =>
      rw [hempty]
      simp [mergedHabits, settingsToRaw]
  have hpre : habitsPreFix (some (settingsToRaw y)) = y.habits.map habitToRaw := by
    unfold habitsPreFix
    rw [hpost]
    simp [List.isEmpty_iff, hne]
  have hactA : activePostMigration (some (settingsToRaw y)) = y.activeHabitId := by
    unfold activePostMigration
    cases hld : legacyDaysOf (some (settingsToRaw y)) with
    | none => simp [mergedActive, settingsToRaw]
    | some l =>
      rw [hempty]
      simp [mergedActive, settingsToRaw]
  have hpreA : activePreFix (some (settingsToRaw y)) = y.activeHabitId := by
    simp only [activePreFix]
    rw [hactA, hactive]
    simp
  have hstep : (normalizeSettings cy fresh cOuter (some (settingsToRaw y))).1
      = { year := y.year
        , habits := (fixHabits fresh cOuter (habitsPreFix (some (settingsToRaw y)))).1
        , activeHabitId := activePreFix (some (settingsToRaw y))
        , completedDays := y.completedDays } := rfl
  rw [hstep, hpre, hpreA, fixHabits_map_habitToRaw fresh y.habits cOuter hfields]

/-- C1 (amended): the dangling-reference repair applies only when the
stored activeHabitId is null or empty; in that case, provided the first
habit carries a non-empty id, the output activeHabitId is that first
habit's id and references a habit of the output list. A non-empty
activeHabitId is preserved verbatim even when it matches no habit. -/
theorem normalizeSettings_active_corrected (cy : Int) (fresh : Nat → String) (c : Nat)
    (x : Option RawRecord)
    (hfalsy : jsTruthy (activePostMigration x) = false)
    (hhead : ∃ h, (habitsPreFix x).head? = some h ∧ jsTruthy h.id = true) :
    ∃ hb, (normalizeSettings cy fresh c x).1.habits.head? = some hb ∧
      (normalizeSettings cy fresh c x).1.activeHabitId = some hb.id := by
  obtain ⟨h, hh, hid⟩ := hhead
  obtain ⟨s, hs, hsne⟩ := jsTruthy_eq_true.mp hid
  cases hl : habitsPreFix x with
  | nil => rw [hl] at hh; simp at hh
  | cons a t =>
    rw [hl] at hh
    simp only [List.head?_cons, Option.some.injEq] at hh
    subst hh
    refine ⟨(fixHabit fresh c a).1, ?_, ?_⟩
    · show ((fixHabits fresh c (habitsPreFix x)).1).head? = _
      rw [hl]
      rfl
    · show activePreFix x = some (fixHabit fresh c a).1.id
      simp only [activePreFix]
      rw [hfalsy, hl]
      simp only [Bool.false_eq_true, if_false, List.head?_cons]
      rw [hs]
      simp [fixHabit, hs, jsTruthy, hsne]

/-- getActiveHabit never returns null on a non-empty habit list. -/
theorem getActiveHabit_ne_none (s : HabitatorSettings) (hne : s.habits ≠ []) :
    getActiveHabit s ≠ none := by
  unfold getActiveHabit
  have hisEmpty : s.habits.isEmpty = false := by simp [List.isEmpty_iff, hne]
  rw [hisEmpty]
  simp only [Bool.false_eq_true, if_false]
  cases hfind : (if jsTruthy s.activeHabitId = true then
      s.habits.find? fun h => h.id == s.activeHabitId.getD "" else none) with
  | some h => simp
  | none => simp [List.head?_eq_none_iff, hne]

/-- C9 (amended): getActiveHabit returns null iff the habits list is
empty; when non-empty, if activeHabitId is a non-empty string and some
habit matches it, the first matching habit is returned; otherwise
(activeHabitId null, empty, or matching no habit) the first habit is
returned. The empty-string case falls through to the first habit even when
a habit with the empty id exists. -/
theorem getActiveHabit_characterization (s : HabitatorSettings) :
    (getActiveHabit s = none ↔ s.habits = []) ∧
    (∀ a h, s.activeHabitId = some a → a ≠ "" →
      s.habits.find? (fun x => x.id == a) = some h → getActiveHabit s = some h) ∧
    (s.habits ≠ [] →
      (jsTruthy s.activeHabitId = false ∨
        s.habits.find? (fun x => x.id == s.activeHabitId.getD "") = none) →
      getActiveHabit s = s.habits.head?) := by
  refine ⟨⟨fun hnone => ?_, fun hnil => ?_⟩, fun a h ha hane hfind => ?_, fun hne hcase => ?_⟩
  · by_contra hne
    exact getActiveHabit_ne_none s hne hnone
  · simp [getActiveHabit, hnil]
  · have hmem := List.mem_of_find?_eq_some hfind
    have hne : s.habits ≠ [] := by
      intro hnil; rw [hnil] at hmem; simp at hmem
    have hisEmpty : s.habits.isEmpty = false := by simp [List.isEmpty_iff, hne]
    have htr : jsTruthy s.activeHabitId = true := by rw [ha]; simp [jsTruthy, hane]
    unfold getActiveHabit
    rw [hisEmpty]
    simp only [Bool.false_eq_true, if_false, htr, if_true]
    rw [ha]
    simp only [Option.getD_some]
    rw [hfind]
  · have hisEmpty : s.habits.isEmpty = false := by simp [List.isEmpty_iff, hne]
    unfold getActiveHabit
    rw [hisEmpty]
    simp only [Bool.false_eq_true, if_false]
    rcases hcase with hfalsy | hfindnone
    · rw [hfalsy]
      simp
    · cases htr : jsTruthy s.activeHabitId with
      | false => simp
      | true => simp [hfindnone]

/-- A list contains ".." exactly when it splits around two adjacent
dots. -/
theorem hasDotDot_eq_true_iff (cs : List Char) :
    hasDotDot cs = true ↔ ∃ l r, cs = l ++ '.' :: '.' :: r := by
  induction cs with
  | nil => simp [hasDotDot]
  | cons a t ih =>
    simp only [hasDotDot, Bool.or_eq_true, Bool.and_eq_true, beq_iff_eq, ih]
    constructor
    · rintro (⟨rfl, hd⟩ | ⟨l, r, rfl⟩)
      · cases t with
        | nil => simp [headIsDot] at hd
        | cons b t2 =>
          simp only [headIsDot, beq_iff_eq] at hd
          subst hd
          exact ⟨[], t2, rfl⟩
      · exact ⟨a :: l, r, rfl⟩
    · rintro ⟨l, r, hcs⟩
      cases l with
      | nil =>
        simp only [List.nil_append, List.cons.injEq] at hcs
        obtain ⟨rfl, rfl⟩ := hcs
        exact Or.inl ⟨rfl, by simp [headIsDot]⟩
      | cons x l2 =>
        simp only [List.cons_append, List.cons.injEq] at hcs
        obtain ⟨rfl, rfl⟩ := hcs
        exact Or.inr ⟨l2, r, rfl⟩

/-- Mapping a dot-preserving function keeps a ".." occurrence. -/
theorem hasDotDot_map (f : Char → Char) (hf : f '.' = '.') (cs : List Char)
    (h : hasDotDot cs = true) : hasDotDot (cs.map f) = true := by
  rw [hasDotDot_eq_true_iff] at h ⊢
  obtain ⟨l, r, rfl⟩ := h
  exact ⟨l.map f, r.map f, by simp [hf]⟩

/-- Dropping a prefix of non-dot characters keeps a ".." occurrence. -/
theorem hasDotDot_dropWhile (p : Char → Bool) (hp : p '.' = false) :
    ∀ cs, hasDotDot cs = true → hasDotDot (cs.dropWhile p) = true := by
  intro cs
  induction cs with
  | nil => simp [hasDotDot]
  | cons a t ih =>
    intro h
    rw [List.dropWhile_cons]
    by_cases hpa : p a = true
    · rw [if_pos hpa]
      apply ih
      simp only [hasDotDot, Bool.or_eq_true, Bool.and_eq_true, beq_iff_eq] at h
      rcases h with ⟨rfl, _⟩ | h
      · simp [hp] at hpa
      · exact h
    · rw [if_neg hpa]
      exact h

/-- Reversal preserves the presence of ".." . -/
theorem hasDotDot_reverse (cs : List Char) :
    hasDotDot cs.reverse = true ↔ hasDotDot cs = true := by
  rw [hasDotDot_eq_true_iff, hasDotDot_eq_true_iff]
  constructor
  · rintro ⟨l, r, hrev⟩
    have h2 : cs = (l ++ '.' :: '.' :: r).reverse := by
      rw [← hrev, List.reverse_reverse]
    refine ⟨r.reverse, l.reverse, ?_⟩
    rw [h2]
    simp [List.reverse_append]
  · rintro ⟨l, r, rfl⟩
    refine ⟨r.reverse, l.reverse, ?_⟩
    simp [List.reverse_append]

/-- A list containing ".." is non-empty. -/
theorem isEmpty_false_of_hasDotDot {cs : List Char} (h : hasDotDot cs = true) :
    cs.isEmpty = false := by
  cases cs with
  | nil => simp [hasDotDot] at h
  | cons a t => rfl

/-- The final branch of the sanitizer returns the default subdirectory
whenever the cleaned-up input still contains ".." . -/
theorem sanitize_branch_of_hasDotDot (cs : List Char) (h : hasDotDot cs = true) :
    (if cs.isEmpty then DEFAULT_STORAGE_CONFIG.customSubdir
      else if hasDotDot cs then DEFAULT_STORAGE_CONFIG.customSubdir
      else String.mk cs) = "habitator-data" := by
  rw [if_neg (by simp [isEmpty_false_of_hasDotDot h]), if_pos h]
  rfl

/-- The final branch of the sanitizer never returns a string
containing ".." . -/
theorem hasDotDot_sanitize_branch (cs : List Char) :
    hasDotDot (if cs.isEmpty then DEFAULT_STORAGE_CONFIG.customSubdir
      else if hasDotDot cs then DEFAULT_STORAGE_CONFIG.customSubdir
      else String.mk cs).toList = false := by
  by_cases he : cs.isEmpty = true
  · rw [if_pos he]
    decide
  · rw [if_neg he]
    by_cases hdd : hasDotDot cs = true
    · rw [if_pos hdd]
      decide
    · rw [if_neg hdd]
      simpa using hdd

/-- C10: every input containing ".." anywhere, including inside an
ordinary segment name, is mapped to the default subdirectory
"habitator-data" (trimming, backslash replacement and slash stripping only
remove characters at the ends, so they cannot break up an adjacent dot
pair); consequently the sanitizer's output never contains ".." . -/
theorem sanitizeVaultRelativeDir_dotdot (v : String) :
    (hasDotDot v.toList = true → sanitizeVaultRelativeDir v = "habitator-data") ∧
    hasDotDot (sanitizeVaultRelativeDir v).toList = false := by
  constructor
  · intro h
    have h1 : hasDotDot (v.toList.dropWhile Char.isWhitespace) = true :=
      hasDotDot_dropWhile Char.isWhitespace (by decide) _ h
    have h2 : hasDotDot (v.toList.dropWhile Char.isWhitespace).reverse = true :=
      (hasDotDot_reverse _).mpr h1
    have h3 := hasDotDot_dropWhile Char.isWhitespace (by decide) _ h2
    have h4 : hasDotDot (jsTrim v.toList) = true := (hasDotDot_reverse _).mpr h3
    have h5 : hasDotDot ((jsTrim v.toList).map fun ch => if ch == '\\' then '/' else ch)
        = true := hasDotDot_map _ (by decide) _ h4
    have h6 := hasDotDot_dropWhile (fun ch => ch == '/') (by decide) _ h5
    have h6r := (hasDotDot_reverse _).mpr h6
    have h7d := hasDotDot_dropWhile (fun ch => ch == '/') (by decide) _ h6r
    have h7 := (hasDotDot_reverse _).mpr h7d
    exact sanitize_branch_of_hasDotDot _ h7
  · exact hasDotDot_sanitize_branch
      (((((jsTrim v.toList).map fun ch => if ch == '\\' then '/' else ch).dropWhile
        fun ch => ch == '/').reverse.dropWhile fun ch => ch == '/').reverse)

/-- Every save call leaves a write of the given settings at the location
resolved from the storage config it returns. -/
theorem saveSettings_persists (w : StorageWorld) (config : HabitatorStorageConfig)
    (s : HabitatorSettings) :
    persistedCurrent (saveSettings w config s).1 s (saveSettings w config s).2 := by
  unfold saveSettings persistedCurrent
  by_cases hm : config.storageMode = HabitatorStorageMode.plugin
  · simp [hm]
  · by_cases hw : w.vaultWriteOk (getConfiguredHabitatorDataPath config) = true
    · simp [hm, hw]
    · simp [hm, hw]

/-- C2 (amended): the self-healing persist happens exactly on the
fallback path: whenever the read from the configured location yields
nothing, loadSettings writes the record it obtained back out to the
location resolved from the storage config in effect after the call. When
the configured read succeeds, loadSettings returns without writing. -/
theorem loadSettings_persists_on_fallback (cy : Int) (fresh : Nat → String) (c : Nat)
    (w : StorageWorld)
    (hmiss : tryLoadHabitDataFromConfiguredLocation w (loadConfigOf w) w.pluginData = none) :
    persistedCurrent (loadSettings cy fresh c w).2.1 (loadSettings cy fresh c w).1
      (loadSettings cy fresh c w).2.2 := by
  simp only [loadSettings, hmiss]
  exact saveSettings_persists w (loadConfigOf w) _

/-- Normalizing a round-tripped storage config preserves its mode. -/
theorem normalizeStorageConfig_configToRaw_mode (cfg : HabitatorStorageConfig) :
    (normalizeStorageConfig (some (configToRaw cfg))).storageMode = cfg.storageMode := by
  obtain ⟨m, sub⟩ := cfg
  cases m <;> rfl

/-- C7: if the vault write of a file-backed save fails, the effective
storage mode is demoted to the embedded ("plugin") one, the settings are
written into the embedded store, and a subsequent load against that store
retrieves exactly those settings, from the embedded payload, without any
further writes. The save itself is total: it returns the demoted config
instead of propagating a failure. -/
theorem saveSettings_demotion (w wNext : StorageWorld) (cfg : HabitatorStorageConfig)
    (s : HabitatorSettings) (cy : Int) (fresh : Nat → String) (c : Nat)
    (hmode : cfg.storageMode ≠ HabitatorStorageMode.plugin)
    (hfail : w.vaultWriteOk (getConfiguredHabitatorDataPath cfg) = false)
    (hnext : wNext.pluginData = some (.wrapped (some (configToRaw (saveSettings w cfg s).1))
      (some (settingsToRaw s)))) :
    (saveSettings w cfg s).1.storageMode = HabitatorStorageMode.plugin ∧
    WriteEvent.savePluginData (.wrapped (some (configToRaw (saveSettings w cfg s).1))
        (some (settingsToRaw s))) ∈ (saveSettings w cfg s).2 ∧
    (loadSettings cy fresh c wNext).1
      = (normalizeSettings cy fresh c (some (settingsToRaw s))).1 ∧
    (loadSettings cy fresh c wNext).2.1.storageMode = HabitatorStorageMode.plugin ∧
    (loadSettings cy fresh c wNext).2.2 = [] := by
  have hsave : saveSettings w cfg s
      = ({ cfg with storageMode := HabitatorStorageMode.plugin },
         [WriteEvent.savePluginData (.wrapped (some (configToRaw cfg)) none),
          WriteEvent.savePluginData
            (.wrapped (some (configToRaw { cfg with storageMode := HabitatorStorageMode.plugin }))
              (some (settingsToRaw s)))]) := by
    simp only [saveSettings, hmode, if_neg, ite_false, hfail]
    simp [hmode]
  have hcfg : (loadConfigOf wNext).storageMode = HabitatorStorageMode.plugin := by
    unfold loadConfigOf
    rw [hnext, hsave]
    exact normalizeStorageConfig_configToRaw_mode _
  have htry : tryLoadHabitDataFromConfiguredLocation wNext (loadConfigOf wNext) wNext.pluginData
      = some (settingsToRaw s) := by
    unfold tryLoadHabitDataFromConfiguredLocation
    rw [if_pos hcfg, hnext]
    rfl
  have hload : loadSettings cy fresh c wNext
      = ((normalizeSettings cy fresh c (some (settingsToRaw s))).1, loadConfigOf wNext, []) := by
    simp only [loadSettings, htry]
  refine ⟨by rw [hsave], by rw [hsave]; simp, by rw [hload], by rw [hload]; exact hcfg,
    by rw [hload]⟩

/-- Witness for the amended C1 theorem at a record with a null
activeHabitId and a first habit with a proper id. -/
theorem normalizeSettings_active_corrected_witness :
    jsTruthy (activePostMigration (some falsyActiveInput)) = false ∧
    (∃ hb, (normalizeSettings 2026 uuidSupply 0 (some falsyActiveInput)).1.habits.head?
        = some hb ∧
      (normalizeSettings 2026 uuidSupply 0 (some falsyActiveInput)).1.activeHabitId
        = some hb.id) :=
  ⟨by decide, normalizeSettings_active_corrected 2026 uuidSupply 0 (some falsyActiveInput)
    (by decide) ⟨⟨some "a", some "X", some []⟩, by decide, by decide⟩⟩

/-- Witness for the amended C2 theorem at the empty world. -/
theorem loadSettings_persists_on_fallback_witness :
    tryLoadHabitDataFromConfiguredLocation emptyWorld (loadConfigOf emptyWorld)
      emptyWorld.pluginData = none ∧
    persistedCurrent (loadSettings 2026 uuidSupply 0 emptyWorld).2.1
      (loadSettings 2026 uuidSupply 0 emptyWorld).1
      (loadSettings 2026 uuidSupply 0 emptyWorld).2.2 :=
  ⟨by decide, loadSettings_persists_on_fallback 2026 uuidSupply 0 emptyWorld (by decide)⟩

/-- Witness for the amended C4 theorem at a null input record. -/
theorem normalizeSettings_idem_witness :
    (∀ n, uuidSupply n ≠ "") ∧
    jsTruthy (normalizeSettings 2026 uuidSupply 0 none).1.activeHabitId = true ∧
    (normalizeSettings 2026 uuidSupply 7
        (some (settingsToRaw (normalizeSettings 2026 uuidSupply 0 none).1))).1
      = (normalizeSettings 2026 uuidSupply 0 none).1 :=
  ⟨by intro n; unfold uuidSupply; decide, by decide,
    normalizeSettings_idem 2026 uuidSupply 0 7 none
      (by intro n; unfold uuidSupply; decide) (by decide)⟩

/-- Witness for the C7 theorem at a read-only world and the default
file-backed config. -/
theorem saveSettings_demotion_witness :
    DEFAULT_STORAGE_CONFIG.storageMode ≠ HabitatorStorageMode.plugin ∧
    readOnlyWorld.vaultWriteOk (getConfiguredHabitatorDataPath DEFAULT_STORAGE_CONFIG) = false ∧
    demotedWorld.pluginData = some (.wrapped
      (some (configToRaw (saveSettings readOnlyWorld DEFAULT_STORAGE_CONFIG demoSettings).1))
      (some (settingsToRaw demoSettings))) ∧
    ((saveSettings readOnlyWorld DEFAULT_STORAGE_CONFIG demoSettings).1.storageMode
        = HabitatorStorageMode.plugin ∧
      WriteEvent.savePluginData (.wrapped
        (some (configToRaw (saveSettings readOnlyWorld DEFAULT_STORAGE_CONFIG demoSettings).1))
        (some (settingsToRaw demoSettings)))
        ∈ (saveSettings readOnlyWorld DEFAULT_STORAGE_CONFIG demoSettings).2 ∧
      (loadSettings 2026 uuidSupply 0 demotedWorld).1
        = (normalizeSettings 2026 uuidSupply 0 (some (settingsToRaw demoSettings))).1 ∧
      (loadSettings 2026 uuidSupply 0 demotedWorld).2.1.storageMode
        = HabitatorStorageMode.plugin ∧
      (loadSettings 2026 uuidSupply 0 demotedWorld).2.2 = []) :=
  ⟨by decide, by decide, by decide,
    saveSettings_demotion readOnlyWorld demotedWorld DEFAULT_STORAGE_CONFIG demoSettings
      2026 uuidSupply 0 (by decide) (by decide) (by decide)⟩

/-- Witness for the amended C9 theorem at a one-habit state with a
matching activeHabitId. -/
theorem getActiveHabit_characterization_witness :
    demoSettings.activeHabitId = some "a" ∧ ("a" : String) ≠ "" ∧
    demoSettings.habits.find? (fun x => x.id == "a") = some ⟨"a", "X", []⟩ ∧
    getActiveHabit demoSettings = some ⟨"a", "X", []⟩ :=
  ⟨rfl, by decide, by decide,
    (getActiveHabit_characterization demoSettings).2.1 "a" ⟨"a", "X", []⟩ rfl
      (by decide) (by decide)⟩

/-- Witness for the C10 theorem at the input "a..b". -/
theorem sanitizeVaultRelativeDir_dotdot_witness :
    hasDotDot ("a..b" : String).toList = true ∧
    sanitizeVaultRelativeDir "a..b" = "habitator-data" :=
  ⟨by decide, (sanitizeVaultRelativeDir_dotdot "a..b").1 (by decide)⟩

end Habitator
